import Mathlib

/-!
Aspect-ratio classification of uploaded videos.

A shallow embedding of `getRatio` and `getVideoAspectRatio` from
`handler_video_meta.go`, together with the `VideoMetaData` record they read.

Go's `int` is modelled as a mathematical integer together with the explicit
two's-complement wrap of a 64-bit word (`wrapInt`); every arithmetic operation
of the source is wrapped.  A run-time panic is the `Except.error` branch.
-/

namespace Tubely

/-! ## Go integers -/

/-- Number of bits of a Go `int` on a 64-bit platform. -/
def intBits : Nat := 64

/-- Smallest value of a Go `int`. -/
def minInt : Int := -(2 ^ (intBits - 1))

/-- Largest value of a Go `int`. -/
def maxInt : Int := 2 ^ (intBits - 1) - 1

/-- Two's-complement wrap of a mathematical integer into the range of `int`. -/
def wrapInt (x : Int) : Int := (x + 2 ^ (intBits - 1)) % 2 ^ intBits - 2 ^ (intBits - 1)

/-- A value that a Go `int` can hold. -/
def IsInt (x : Int) : Prop := minInt ≤ x ∧ x ≤ maxInt

instance (x : Int) : Decidable (IsInt x) :=
  inferInstanceAs (Decidable (minInt ≤ x ∧ x ≤ maxInt))

/-- Go `a + b` on `int`. -/
def addInt (a b : Int) : Int := wrapInt (a + b)

/-- Go `a - b` on `int`. -/
def subInt (a b : Int) : Int := wrapInt (a - b)

/-- Go `a * b` on `int`. -/
def mulInt (a b : Int) : Int := wrapInt (a * b)

/-- Go `a / b` on `int`: the quotient truncated toward zero. -/
def divInt (a b : Int) : Int := wrapInt (Int.tdiv a b)

/-! ## Data model -/

/-- The anonymous `Disposition` struct of a stream. -/
structure Disposition where
  Default : Int
  Dub : Int
  Original : Int
  Comment : Int
  Lyrics : Int
  Karaoke : Int
  Forced : Int
  HearingImpaired : Int
  VisualImpaired : Int
  CleanEffects : Int
  AttachedPic : Int
  TimedThumbnails : Int
  NonDiegetic : Int
  Captions : Int
  Descriptions : Int
  Metadata : Int
  Dependent : Int
  StillImage : Int
  Multilayer : Int
  deriving Inhabited

/-- The anonymous `Tags` struct of a stream. -/
structure Tags where
  Language : String
  HandlerName : String
  VendorId : String
  Encoder : String
  Timecode : String
  deriving Inhabited

/-- One element of `VideoMetaData.Streams`. -/
structure Stream where
  Index : Int
  CodecName : String
  CodecLongName : String
  Profile : String
  CodecType : String
  CodecTagString : String
  CodecTag : String
  Width : Int
  Height : Int
  CodedWidth : Int
  CodedHeight : Int
  ClosedCaptions : Int
  FilmGrain : Int
  HasBFrames : Int
  SampleAspectRatio : String
  DisplayAspectRatio : String
  PixFmt : String
  Level : Int
  ColorRange : String
  ColorSpace : String
  ColorTransfer : String
  ColorPrimaries : String
  ChromaLocation : String
  FieldOrder : String
  Refs : Int
  IsAvc : String
  NalLengthSize : String
  Id : String
  RFrameRate : String
  AvgFrameRate : String
  TimeBase : String
  StartPts : Int
  StartTime : String
  DurationTs : Int
  Duration : String
  BitRate : String
  BitsPerRawSample : String
  NbFrames : String
  ExtradataSize : Int
  Disposition : Disposition
  Tags : Tags
  SampleFmt : String
  SampleRate : String
  Channels : Int
  ChannelLayout : String
  BitsPerSample : Int
  InitialPadding : Int
  deriving Inhabited

/-- The record `VideoMetaData`: the decoded output of the prober. -/
structure VideoMetaData where
  Streams : List Stream
  deriving Inhabited

/-- A Go run-time panic. -/
inductive RuntimePanic where
  /-- The panic `index out of range [index] with length length`. -/
  | indexOutOfRange (index length : Nat)
  deriving Repr, DecidableEq

/-! ## The classifier -/

/-- The function `getRatio`: `Streams[0]` panics on an empty slice; otherwise the
label is chosen from the first stream's width and height. -/
def getRatio (videoMetaData : VideoMetaData) : Except RuntimePanic String :=
  match videoMetaData.Streams with
  | [] => .error (.indexOutOfRange 0 0)
  | streamMetaData :: _ =>
    let width := streamMetaData.Width
    let height := streamMetaData.Height
    if width > height then
      let unit := divInt width 16
      if mulInt unit 9 ≥ subInt height 10 ∧ mulInt unit 9 ≤ addInt height 10 then
        .ok "landscape"
      else
        .ok "other"
    else
      let unit := divInt height 16
      if mulInt unit 9 ≥ subInt width 10 ∧ mulInt unit 9 ≤ addInt width 10 then
        .ok "portrait"
      else
        .ok "other"

/-- The function `getVideoAspectRatio`.  The two library calls are parameters:
`run filePath` is the `ffprobe` subprocess (the bytes it wrote to the buffer and
the error of `command.Run()`, if any), and `unmarshal` is `json.Unmarshal` into
a `VideoMetaData`.  The result is the returned pair `(string, error)`, or the
panic raised by `getRatio`. -/
def getVideoAspectRatio {ε β : Type} (run : String → β × Option ε)
    (unmarshal : β → Except ε VideoMetaData) (filePath : String) :
    Except RuntimePanic (String × Option ε) :=
  match run filePath with
  | (_, some err) => .ok ("", some err)
  | (b, none) =>
    match unmarshal b with
    | .error err => .ok ("", some err)
    | .ok videoMetaData =>
      match getRatio videoMetaData with
      | .error p => .error p
      | .ok ratio => .ok (ratio, none)

/-- The classification with the exact rational quotient `9 * dimension / 16` in
place of the truncated `(dimension / 16) * 9`: the floating-point
reimplementation that the specification warns about. -/
def exactRatio (width height : Int) : String :=
  if width > height then
    if ((height : ℚ) - 10 ≤ 9 * (width : ℚ) / 16 ∧ 9 * (width : ℚ) / 16 ≤ (height : ℚ) + 10) then
      "landscape"
    else
      "other"
  else
    if ((width : ℚ) - 10 ≤ 9 * (height : ℚ) / 16 ∧ 9 * (height : ℚ) / 16 ≤ (width : ℚ) + 10) then
      "portrait"
    else
      "other"

/-- A stream with every field zero, as Go's zero value. -/
def zeroStream : Stream := default

/-- A stream of the given width and height, every other field zero. -/
def streamOf (width height : Int) : Stream :=
  { zeroStream with Width := width, Height := height }

/-- A 1920x1080 stream whose codec fields are filled in. -/
def h264Stream : Stream :=
  { streamOf 1920 1080 with Index := 1, CodecName := "h264", CodecType := "video" }

/-! ## Go integers: the wrap is the identity on representable values -/

theorem wrapInt_of_isInt {x : Int} (hx : IsInt x) : wrapInt x = x := by
  unfold IsInt minInt maxInt intBits at hx
  unfold wrapInt intBits
  norm_num at hx ⊢
  omega

/-- The label of a non-empty stream list, as one expression in the first
stream's width and height. -/
theorem getRatio_cons (s : Stream) (rest : List Stream) :
    getRatio ⟨s :: rest⟩ =
      .ok (if s.Width > s.Height then
          (if mulInt (divInt s.Width 16) 9 ≥ subInt s.Height 10 ∧
              mulInt (divInt s.Width 16) 9 ≤ addInt s.Height 10 then "landscape" else "other")
        else
          (if mulInt (divInt s.Height 16) 9 ≥ subInt s.Width 10 ∧
              mulInt (divInt s.Height 16) 9 ≤ addInt s.Width 10 then "portrait" else "other")) := by
  simp only [getRatio]
  split_ifs <;> rfl

theorem getRatio_of_streams {v : VideoMetaData} {s : Stream} {rest : List Stream}
    (hv : v.Streams = s :: rest) : getRatio v = getRatio ⟨s :: rest⟩ := by
  cases v
  simp only at hv
  rw [hv]

/-- On a non-negative representable dimension the scaled unit of the code is the
mathematical `(d / 16) * 9`. -/
theorem mulInt_divInt_of_nonneg {d : Int} (h0 : 0 ≤ d) (hd : IsInt d) :
    mulInt (divInt d 16) 9 = Int.tdiv d 16 * 9 := by
  unfold IsInt minInt maxInt intBits at hd
  unfold mulInt divInt wrapInt intBits
  rw [Int.tdiv_eq_ediv h0 (by decide)]
  norm_num at hd ⊢
  omega

/-- The tolerance test of the code, with its wrapping arithmetic, agrees with the
mathematical window test on non-negative representable dimensions: when
`o + 10` overflows, `o - 10` already exceeds every possible `(d / 16) * 9`. -/
theorem window_test_iff {d o : Int} (hd0 : 0 ≤ d) (hd : IsInt d) (ho0 : 0 ≤ o) (ho : IsInt o) :
    (mulInt (divInt d 16) 9 ≥ subInt o 10 ∧ mulInt (divInt d 16) 9 ≤ addInt o 10) ↔
      (o - 10 ≤ Int.tdiv d 16 * 9 ∧ Int.tdiv d 16 * 9 ≤ o + 10) := by
  rw [mulInt_divInt_of_nonneg hd0 hd]
  unfold IsInt minInt maxInt intBits at hd ho
  unfold subInt addInt wrapInt intBits
  rw [Int.tdiv_eq_ediv hd0 (by decide)]
  norm_num at hd ho ⊢
  omega

theorem label_ne : "landscape" ≠ "portrait" ∧ "landscape" ≠ "other" ∧ "portrait" ≠ "other" := by
  decide

/-- A non-empty stream list is labelled "landscape" exactly when the landscape
branch is taken and the code's tolerance test succeeds. -/
theorem getRatio_cons_landscape (s : Stream) (rest : List Stream) :
    getRatio ⟨s :: rest⟩ = .ok "landscape" ↔
      s.Width > s.Height ∧ (mulInt (divInt s.Width 16) 9 ≥ subInt s.Height 10 ∧
        mulInt (divInt s.Width 16) 9 ≤ addInt s.Height 10) := by
  obtain ⟨n1, n2, -⟩ := label_ne
  rw [getRatio_cons]
  simp only [Except.ok.injEq]
  split_ifs with h1 h2 h2
  · exact iff_of_true rfl ⟨h1, h2⟩
  · exact iff_of_false n2.symm (fun h => h2 h.2)
  · exact iff_of_false n1.symm (fun h => h1 h.1)
  · exact iff_of_false n2.symm (fun h => h1 h.1)

/-- A non-empty stream list is labelled "portrait" exactly when the portrait
branch is taken and the code's tolerance test succeeds. -/
theorem getRatio_cons_portrait (s : Stream) (rest : List Stream) :
    getRatio ⟨s :: rest⟩ = .ok "portrait" ↔
      ¬ s.Width > s.Height ∧ (mulInt (divInt s.Height 16) 9 ≥ subInt s.Width 10 ∧
        mulInt (divInt s.Height 16) 9 ≤ addInt s.Width 10) := by
  obtain ⟨n1, -, n3⟩ := label_ne
  rw [getRatio_cons]
  simp only [Except.ok.injEq]
  split_ifs with h1 h2 h2
  · exact iff_of_false n1 (fun h => h.1 h1)
  · exact iff_of_false n3.symm (fun h => h.1 h1)
  · exact iff_of_true rfl ⟨h1, h2⟩
  · exact iff_of_false n3.symm (fun h => h2 h.2)

/-- Every non-empty stream list receives one of the three labels. -/
theorem getRatio_cons_mem (s : Stream) (rest : List Stream) :
    getRatio ⟨s :: rest⟩ = .ok "landscape" ∨ getRatio ⟨s :: rest⟩ = .ok "portrait" ∨
      getRatio ⟨s :: rest⟩ = .ok "other" := by
  rw [getRatio_cons]
  split_ifs
  · exact Or.inl rfl
  · exact Or.inr (Or.inr rfl)
  · exact Or.inr (Or.inl rfl)
  · exact Or.inr (Or.inr rfl)

/-- When the prober succeeds and its output decodes, `getVideoAspectRatio` is
`getRatio` on the decoded value, paired with a nil error. -/
theorem getVideoAspectRatio_of_decoded {ε β : Type} (run : String → β × Option ε)
    (unmarshal : β → Except ε VideoMetaData) (filePath : String) (b : β) (v : VideoMetaData)
    (hrun : run filePath = (b, none)) (hdec : unmarshal b = .ok v) :
    getVideoAspectRatio run unmarshal filePath =
      match getRatio v with
      | .error p => .error p
      | .ok ratio => .ok (ratio, none) := by
  simp only [getVideoAspectRatio, hrun, hdec]

/-- The three labels of a non-empty stream list with positive representable
dimensions, in terms of the mathematical window test. -/
theorem getRatio_cons_label_iff (s : Stream) (rest : List Stream)
    (hw : 0 < s.Width) (hh : 0 < s.Height)
    (hwr : IsInt s.Width) (hhr : IsInt s.Height) :
    (getRatio ⟨s :: rest⟩ = .ok "landscape" ↔
        s.Width > s.Height ∧ s.Height - 10 ≤ Int.tdiv s.Width 16 * 9 ∧
          Int.tdiv s.Width 16 * 9 ≤ s.Height + 10) ∧
    (getRatio ⟨s :: rest⟩ = .ok "portrait" ↔
        s.Width ≤ s.Height ∧ s.Width - 10 ≤ Int.tdiv s.Height 16 * 9 ∧
          Int.tdiv s.Height 16 * 9 ≤ s.Width + 10) ∧
    (getRatio ⟨s :: rest⟩ = .ok "other" ↔
        ¬ (s.Width > s.Height ∧ s.Height - 10 ≤ Int.tdiv s.Width 16 * 9 ∧
          Int.tdiv s.Width 16 * 9 ≤ s.Height + 10) ∧
        ¬ (s.Width ≤ s.Height ∧ s.Width - 10 ≤ Int.tdiv s.Height 16 * 9 ∧
          Int.tdiv s.Height 16 * 9 ≤ s.Width + 10)) := by
  have hL := window_test_iff (le_of_lt hw) hwr (le_of_lt hh) hhr
  have hP := window_test_iff (le_of_lt hh) hhr (le_of_lt hw) hwr
  obtain ⟨n1, n2, n3⟩ := label_ne
  rw [getRatio_cons]
  simp only [hL, hP, Except.ok.injEq]
  split_ifs with h1 h2 h2
  · refine ⟨iff_of_true rfl ⟨h1, h2⟩, iff_of_false n1 ?_, iff_of_false n2 ?_⟩
    · exact fun h => absurd h1 (not_lt.mpr h.1)
    · exact fun h => h.1 ⟨h1, h2⟩
  · refine ⟨iff_of_false n2.symm ?_, iff_of_false n3.symm ?_, iff_of_true rfl ⟨?_, ?_⟩⟩
    · exact fun h => h2 h.2
    · exact fun h => absurd h1 (not_lt.mpr h.1)
    · exact fun h => h2 h.2
    · exact fun h => absurd h1 (not_lt.mpr h.1)
  · refine ⟨iff_of_false n1.symm ?_, iff_of_true rfl ⟨not_lt.mp h1, h2⟩, iff_of_false n3 ?_⟩
    · exact fun h => h1 h.1
    · exact fun h => h.2 ⟨not_lt.mp h1, h2⟩
  · refine ⟨iff_of_false n2.symm ?_, iff_of_false n3.symm ?_, iff_of_true rfl ⟨?_, ?_⟩⟩
    · exact fun h => h1 h.1
    · exact fun h => h2 h.2
    · exact fun h => h1 h.1
    · exact fun h => h2 h.2

/-! ## Claims -/

/-- C1: for positive (representable) width `w` and height `h` of the first stream,
`getRatio` returns "landscape" exactly when `w > h` and
`h - 10 ≤ (w / 16) * 9 ≤ h + 10`, returns "portrait" exactly when `w ≤ h` and
`w - 10 ≤ (h / 16) * 9 ≤ w + 10`, and returns "other" exactly in the remaining
cases, where `/` is truncating integer division. -/
theorem getRatio_label_iff (v : VideoMetaData) (s : Stream) (rest : List Stream)
    (hv : v.Streams = s :: rest) (hw : 0 < s.Width) (hh : 0 < s.Height)
    (hwr : IsInt s.Width) (hhr : IsInt s.Height) :
    (getRatio v = .ok "landscape" ↔
        s.Width > s.Height ∧ s.Height - 10 ≤ Int.tdiv s.Width 16 * 9 ∧
          Int.tdiv s.Width 16 * 9 ≤ s.Height + 10) ∧
    (getRatio v = .ok "portrait" ↔
        s.Width ≤ s.Height ∧ s.Width - 10 ≤ Int.tdiv s.Height 16 * 9 ∧
          Int.tdiv s.Height 16 * 9 ≤ s.Width + 10) ∧
    (getRatio v = .ok "other" ↔
        ¬ (s.Width > s.Height ∧ s.Height - 10 ≤ Int.tdiv s.Width 16 * 9 ∧
          Int.tdiv s.Width 16 * 9 ≤ s.Height + 10) ∧
        ¬ (s.Width ≤ s.Height ∧ s.Width - 10 ≤ Int.tdiv s.Height 16 * 9 ∧
          Int.tdiv s.Height 16 * 9 ≤ s.Width + 10)) := by
  rw [getRatio_of_streams hv]
  exact getRatio_cons_label_iff s rest hw hh hwr hhr

/-- Witness for C1: a 1920x1080 first stream meets the hypotheses and is
"landscape" by the characterisation. -/
theorem getRatio_label_iff_witness :
    (0 : Int) < (streamOf 1920 1080).Width ∧ (0 : Int) < (streamOf 1920 1080).Height ∧
      IsInt (streamOf 1920 1080).Width ∧ IsInt (streamOf 1920 1080).Height ∧
      getRatio ⟨[streamOf 1920 1080]⟩ = .ok "landscape" :=
  ⟨by decide, by decide, by decide, by decide,
    (getRatio_label_iff ⟨[streamOf 1920 1080]⟩ (streamOf 1920 1080) [] rfl
      (by decide) (by decide) (by decide) (by decide)).1.mpr ⟨by decide, by decide, by decide⟩⟩

/-- C2: for positive width and height of the first stream, `getRatio` returns
a label, and it is exactly one of "landscape", "portrait", "other". -/
theorem getRatio_total (v : VideoMetaData) (s : Stream) (rest : List Stream)
    (hv : v.Streams = s :: rest) (_hw : 0 < s.Width) (_hh : 0 < s.Height) :
    ∃! l : String, (l = "landscape" ∨ l = "portrait" ∨ l = "other") ∧ getRatio v = .ok l := by
  rw [getRatio_of_streams hv]
  rcases getRatio_cons_mem s rest with h | h | h
  · exact ⟨"landscape", ⟨Or.inl rfl, h⟩, fun l hl => Except.ok.inj (hl.2.symm.trans h)⟩
  · exact ⟨"portrait", ⟨Or.inr (Or.inl rfl), h⟩, fun l hl => Except.ok.inj (hl.2.symm.trans h)⟩
  · exact ⟨"other", ⟨Or.inr (Or.inr rfl), h⟩, fun l hl => Except.ok.inj (hl.2.symm.trans h)⟩

/-- Witness for C2: a 640x480 first stream has positive dimensions and receives
exactly one label. -/
theorem getRatio_total_witness :
    (0 : Int) < (streamOf 640 480).Width ∧ (0 : Int) < (streamOf 640 480).Height ∧
      ∃! l : String, (l = "landscape" ∨ l = "portrait" ∨ l = "other") ∧
        getRatio ⟨[streamOf 640 480]⟩ = .ok l :=
  ⟨by decide, by decide,
    getRatio_total ⟨[streamOf 640 480]⟩ (streamOf 640 480) [] rfl (by decide) (by decide)⟩

/-- C3: the worked examples.  Whatever the other fields of the first stream and
whatever the later streams, 1920x1080 is "landscape", 1080x1920 is "portrait" and
640x480 is "other"; for the last one the unit is 40, `40 * 9 = 360`, and 360 lies
outside the window from 470 to 490. -/
theorem getRatio_worked_examples (s : Stream) (rest : List Stream) :
    getRatio ⟨{ s with Width := 1920, Height := 1080 } :: rest⟩ = .ok "landscape" ∧
    getRatio ⟨{ s with Width := 1080, Height := 1920 } :: rest⟩ = .ok "portrait" ∧
    getRatio ⟨{ s with Width := 640, Height := 480 } :: rest⟩ = .ok "other" ∧
    divInt 640 16 = 40 ∧ mulInt (divInt 640 16) 9 = 360 ∧
    subInt 480 10 = 470 ∧ addInt 480 10 = 490 ∧ ¬ ((470 : Int) ≤ 360 ∧ (360 : Int) ≤ 490) := by
  refine ⟨rfl, rfl, rfl, by decide, by decide, by decide, by decide, by decide⟩

/-- C4: boundary of the landscape window.  For a first stream of width `w` and
positive height `h` with `w > h`, writing `unit = w / 16` (truncating): if
`h = unit * 9 - 10` or `h = unit * 9 + 10` then `getRatio` returns "landscape", and
if `h = unit * 9 - 11` or `h = unit * 9 + 11` then it returns "other". -/
theorem getRatio_landscape_boundary (v : VideoMetaData) (s : Stream) (rest : List Stream)
    (hv : v.Streams = s :: rest) (hh : 0 < s.Height) (hgt : s.Width > s.Height)
    (hwr : IsInt s.Width) :
    ((s.Height = Int.tdiv s.Width 16 * 9 - 10 ∨ s.Height = Int.tdiv s.Width 16 * 9 + 10) →
        getRatio v = .ok "landscape") ∧
    ((s.Height = Int.tdiv s.Width 16 * 9 - 11 ∨ s.Height = Int.tdiv s.Width 16 * 9 + 11) →
        getRatio v = .ok "other") := by
  have hw : 0 < s.Width := lt_trans hh hgt
  have hhr : IsInt s.Height := by
    unfold IsInt minInt maxInt intBits at hwr ⊢
    norm_num at hwr ⊢
    omega
  rw [getRatio_of_streams hv]
  obtain ⟨hL, -, hO⟩ := getRatio_cons_label_iff s rest hw hh hwr hhr
  constructor
  · intro h
    apply hL.mpr
    refine ⟨hgt, ?_, ?_⟩ <;> omega
  · intro h
    apply hO.mpr
    constructor
    · intro hc
      omega
    · intro hc
      omega

/-- Witness for C4: width 1920 gives unit 120 and `120 * 9 = 1080`; heights 1070
and 1090 are "landscape", heights 1069 and 1091 are "other". -/
theorem getRatio_landscape_boundary_witness :
    getRatio ⟨[streamOf 1920 1070]⟩ = .ok "landscape" ∧
    getRatio ⟨[streamOf 1920 1090]⟩ = .ok "landscape" ∧
    getRatio ⟨[streamOf 1920 1069]⟩ = .ok "other" ∧
    getRatio ⟨[streamOf 1920 1091]⟩ = .ok "other" :=
  ⟨(getRatio_landscape_boundary ⟨[streamOf 1920 1070]⟩ (streamOf 1920 1070) [] rfl
      (by decide) (by decide) (by decide)).1 (Or.inl (by decide)),
    (getRatio_landscape_boundary ⟨[streamOf 1920 1090]⟩ (streamOf 1920 1090) [] rfl
      (by decide) (by decide) (by decide)).1 (Or.inr (by decide)),
    (getRatio_landscape_boundary ⟨[streamOf 1920 1069]⟩ (streamOf 1920 1069) [] rfl
      (by decide) (by decide) (by decide)).2 (Or.inl (by decide)),
    (getRatio_landscape_boundary ⟨[streamOf 1920 1091]⟩ (streamOf 1920 1091) [] rfl
      (by decide) (by decide) (by decide)).2 (Or.inr (by decide))⟩

/-- C5 as stated fails: a 0x0 first stream, and a first stream with negative
dimensions, are not rejected; `getRatio` labels them, and `getVideoAspectRatio`
returns the label with a nil error. -/
theorem getRatio_nonpositive_not_rejected :
    (streamOf 0 0).Width ≤ 0 ∧
    getRatio ⟨[streamOf 0 0]⟩ = .ok "portrait" ∧
    getVideoAspectRatio (fun _ => ((), (none : Option String)))
      (fun _ => .ok ⟨[streamOf 0 0]⟩) "video.mp4" = .ok ("portrait", none) ∧
    (streamOf (-1920) (-1080)).Height ≤ 0 ∧
    getRatio ⟨[streamOf (-1920) (-1080)]⟩ = .ok "other" ∧
    getVideoAspectRatio (fun _ => ((), (none : Option String)))
      (fun _ => .ok ⟨[streamOf (-1920) (-1080)]⟩) "video.mp4" = .ok ("other", none) :=
  ⟨by decide, rfl, rfl, by decide, rfl, rfl⟩

/-- C5, amended: when the first stream's width or height is non-positive,
`getRatio` raises no error and still returns one of the three labels, and
`getVideoAspectRatio`, once the prober has run and its output has decoded,
returns that label with a nil error. -/
theorem getRatio_nonpositive_labelled {ε β : Type} (v : VideoMetaData) (s : Stream)
    (rest : List Stream) (hv : v.Streams = s :: rest) (_hnp : s.Width ≤ 0 ∨ s.Height ≤ 0) :
    ∃ l : String, (l = "landscape" ∨ l = "portrait" ∨ l = "other") ∧ getRatio v = .ok l ∧
      ∀ (run : String → β × Option ε) (unmarshal : β → Except ε VideoMetaData)
        (filePath : String) (b : β), run filePath = (b, none) → unmarshal b = .ok v →
          getVideoAspectRatio run unmarshal filePath = .ok (l, none) := by
  have key : ∀ l : String, getRatio v = .ok l →
      ∀ (run : String → β × Option ε) (unmarshal : β → Except ε VideoMetaData)
        (filePath : String) (b : β), run filePath = (b, none) → unmarshal b = .ok v →
          getVideoAspectRatio run unmarshal filePath = .ok (l, none) := by
    intro l hl run unmarshal filePath b hrun hdec
    rw [getVideoAspectRatio_of_decoded run unmarshal filePath b v hrun hdec, hl]
  have hmem := getRatio_cons_mem s rest
  rw [← getRatio_of_streams hv] at hmem
  rcases hmem with h | h | h
  · exact ⟨"landscape", Or.inl rfl, h, key _ h⟩
  · exact ⟨"portrait", Or.inr (Or.inl rfl), h, key _ h⟩
  · exact ⟨"other", Or.inr (Or.inr rfl), h, key _ h⟩

/-- Witness for C5, amended: a first stream of width 0 and height 1080. -/
theorem getRatio_nonpositive_labelled_witness :
    ((streamOf 0 1080).Width ≤ 0 ∨ (streamOf 0 1080).Height ≤ 0) ∧
    ∃ l : String, (l = "landscape" ∨ l = "portrait" ∨ l = "other") ∧
      getRatio ⟨[streamOf 0 1080]⟩ = .ok l ∧
      ∀ (run : String → Unit × Option String) (unmarshal : Unit → Except String VideoMetaData)
        (filePath : String) (b : Unit), run filePath = (b, none) →
          unmarshal b = .ok ⟨[streamOf 0 1080]⟩ →
          getVideoAspectRatio run unmarshal filePath = .ok (l, none) :=
  ⟨Or.inl (by decide),
    getRatio_nonpositive_labelled ⟨[streamOf 0 1080]⟩ (streamOf 0 1080) [] rfl
      (Or.inl (by decide))⟩

/-- C6: the two orientation labels are exclusive by branch.  For all integer
width `w` and height `h` of the first stream, `getRatio` returns "landscape" only
if `w > h` and "portrait" only if `h ≥ w`.  The branch is chosen on `w > h` alone:
when `w > h` the result is that of the landscape test on `w / 16`, and otherwise,
in particular for a square frame `w = h`, it is that of the portrait test on
`h / 16`, so a square frame is "portrait" exactly when the portrait test succeeds
and is "other" when it fails, never "landscape".  Square frames of side 16, 1 and
0 are "portrait", and a 1000x1000 first stream is "other" (unit 62,
`62 * 9 = 558`, outside the window from 990 to 1010). -/
theorem getRatio_branch_exclusive (v : VideoMetaData) (s : Stream) (rest : List Stream)
    (hv : v.Streams = s :: rest) :
    (getRatio v = .ok "landscape" → s.Width > s.Height) ∧
    (getRatio v = .ok "portrait" → s.Height ≥ s.Width) ∧
    (s.Width = s.Height → getRatio v ≠ .ok "landscape") ∧
    (s.Width = 1000 → s.Height = 1000 → getRatio v = .ok "other") ∧
    divInt 1000 16 = 62 ∧ mulInt (divInt 1000 16) 9 = 558 ∧
    subInt 1000 10 = 990 ∧ addInt 1000 10 = 1010 ∧ ¬ ((990 : Int) ≤ 558 ∧ (558 : Int) ≤ 1010) ∧
    (s.Width > s.Height → getRatio v =
      .ok (if mulInt (divInt s.Width 16) 9 ≥ subInt s.Height 10 ∧
          mulInt (divInt s.Width 16) 9 ≤ addInt s.Height 10 then "landscape" else "other")) ∧
    (s.Height ≥ s.Width → getRatio v =
      .ok (if mulInt (divInt s.Height 16) 9 ≥ subInt s.Width 10 ∧
          mulInt (divInt s.Height 16) 9 ≤ addInt s.Width 10 then "portrait" else "other")) ∧
    (s.Width = s.Height → getRatio v =
      .ok (if mulInt (divInt s.Height 16) 9 ≥ subInt s.Width 10 ∧
          mulInt (divInt s.Height 16) 9 ≤ addInt s.Width 10 then "portrait" else "other")) ∧
    (s.Width = s.Height → (getRatio v = .ok "portrait" ↔
      (mulInt (divInt s.Height 16) 9 ≥ subInt s.Width 10 ∧
        mulInt (divInt s.Height 16) 9 ≤ addInt s.Width 10))) ∧
    (s.Width = s.Height → (getRatio v = .ok "other" ↔
      ¬ (mulInt (divInt s.Height 16) 9 ≥ subInt s.Width 10 ∧
        mulInt (divInt s.Height 16) 9 ≤ addInt s.Width 10))) ∧
    (s.Width = 16 → s.Height = 16 → getRatio v = .ok "portrait") ∧
    (s.Width = 1 → s.Height = 1 → getRatio v = .ok "portrait") ∧
    (s.Width = 0 → s.Height = 0 → getRatio v = .ok "portrait") := by
  rw [getRatio_of_streams hv]
  have hland : s.Width > s.Height → getRatio ⟨s :: rest⟩ =
      .ok (if mulInt (divInt s.Width 16) 9 ≥ subInt s.Height 10 ∧
          mulInt (divInt s.Width 16) 9 ≤ addInt s.Height 10 then "landscape" else "other") := by
    intro hgt
    rw [getRatio_cons, if_pos hgt]
  have hport : s.Height ≥ s.Width → getRatio ⟨s :: rest⟩ =
      .ok (if mulInt (divInt s.Height 16) 9 ≥ subInt s.Width 10 ∧
          mulInt (divInt s.Height 16) 9 ≤ addInt s.Width 10 then "portrait" else "other") := by
    intro hge
    rw [getRatio_cons, if_neg (not_lt.mpr hge)]
  refine ⟨?_, ?_, ?_, ?_, by decide, by decide, by decide, by decide, by decide,
    hland, hport, fun heq => hport (le_of_eq heq), ?_, ?_, ?_, ?_, ?_⟩
  · exact fun h => ((getRatio_cons_landscape s rest).mp h).1
  · exact fun h => not_lt.mp ((getRatio_cons_portrait s rest).mp h).1
  · intro heq h
    have hgt := ((getRatio_cons_landscape s rest).mp h).1
    rw [heq] at hgt
    exact lt_irrefl _ hgt
  · intro h1 h2
    rw [getRatio_cons, h1, h2]
    rfl
  · intro heq
    rw [getRatio_cons_portrait]
    exact ⟨fun h => h.2, fun h => ⟨not_lt.mpr (le_of_eq heq), h⟩⟩
  · intro heq
    rw [hport (le_of_eq heq)]
    split_ifs with ht
    · exact iff_of_false (fun h => label_ne.2.2 (Except.ok.inj h)) (fun h => h ht)
    · exact iff_of_true rfl ht
  · intro h1 h2
    rw [getRatio_cons, h1, h2]
    rfl
  · intro h1 h2
    rw [getRatio_cons, h1, h2]
    rfl
  · intro h1 h2
    rw [getRatio_cons, h1, h2]
    rfl

/-- Witness for C6: a 1000x1000 first stream is "other"; a 1920x1080 first
stream, which is "landscape", has its width above its height; and the square
frames 16x16 and 1x1 take the portrait branch and are "portrait", the first by
the square-frame characterisation (unit 1, `1 * 9 = 9` inside the window from 6
to 26). -/
theorem getRatio_branch_exclusive_witness :
    getRatio ⟨[streamOf 1000 1000]⟩ = .ok "other" ∧
    (streamOf 1920 1080).Width > (streamOf 1920 1080).Height ∧
    getRatio ⟨[streamOf 16 16]⟩ = .ok "portrait" ∧
    getRatio ⟨[streamOf 1 1]⟩ = .ok "portrait" ∧
    ¬ getRatio ⟨[streamOf 16 16]⟩ = .ok "other" :=
  ⟨(getRatio_branch_exclusive ⟨[streamOf 1000 1000]⟩ (streamOf 1000 1000) [] rfl).2.2.2.1 rfl rfl,
    (getRatio_branch_exclusive ⟨[streamOf 1920 1080]⟩ (streamOf 1920 1080) [] rfl).1 rfl,
    ((getRatio_branch_exclusive ⟨[streamOf 16 16]⟩ (streamOf 16 16) [] rfl).2.2.2.2.2.2.2.2.2.2.2.2.1
      rfl).mpr (by decide),
    (getRatio_branch_exclusive ⟨[streamOf 1 1]⟩ (streamOf 1 1) [] rfl).2.2.2.2.2.2.2.2.2.2.2.2.2.2.2.1
      rfl rfl,
    fun h => ((getRatio_branch_exclusive ⟨[streamOf 16 16]⟩ (streamOf 16 16) []
      rfl).2.2.2.2.2.2.2.2.2.2.2.2.2.1 rfl).mp h (by decide)⟩

/-- C7: truncating division is load-bearing.  There are positive dimensions on
which the label of `getRatio` differs from the label of the same policy
evaluated with the exact rational quotient: 1935x1078 is "landscape" with
truncation (`(1935 / 16) * 9 = 1080`) and "other" with the exact value
`9 * 1935 / 16 = 1088.4375`, which exceeds `1078 + 10`. -/
theorem getRatio_truncation_load_bearing :
    (∃ w h : Int, 0 < w ∧ 0 < h ∧ IsInt w ∧ IsInt h ∧
      ∀ (s : Stream) (rest : List Stream),
        getRatio ⟨{ s with Width := w, Height := h } :: rest⟩ ≠ .ok (exactRatio w h)) ∧
    (∀ (s : Stream) (rest : List Stream),
      getRatio ⟨{ s with Width := 1935, Height := 1078 } :: rest⟩ = .ok "landscape") ∧
    mulInt (divInt 1935 16) 9 = 1080 ∧
    exactRatio 1935 1078 = "other" ∧
    (9 * (1935 : ℚ) / 16 = 1088.4375) := by
  have hex : exactRatio 1935 1078 = "other" := by
    unfold exactRatio
    norm_num
  refine ⟨⟨1935, 1078, by decide, by decide, by decide, by decide, ?_⟩, fun _ _ => rfl,
    by decide, hex, by norm_num⟩
  intro s rest h
  rw [hex] at h
  have h2 : getRatio ⟨{ s with Width := 1935, Height := 1078 } :: rest⟩ = .ok "landscape" := rfl
  rw [h2] at h
  exact label_ne.2.1 (Except.ok.inj h)

/-- C8: `getRatio` reads only the first stream's width and height.  Two metadata
values with non-empty stream lists whose first streams agree on `Width` and on
`Height` receive the same result, whatever the other fields of the first streams
and whatever the later streams. -/
theorem getRatio_depends_on_first_dims (v₁ v₂ : VideoMetaData) (s₁ s₂ : Stream)
    (rest₁ rest₂ : List Stream) (hv₁ : v₁.Streams = s₁ :: rest₁) (hv₂ : v₂.Streams = s₂ :: rest₂)
    (hw : s₁.Width = s₂.Width) (hh : s₁.Height = s₂.Height) :
    getRatio v₁ = getRatio v₂ := by
  rw [getRatio_of_streams hv₁, getRatio_of_streams hv₂, getRatio_cons, getRatio_cons, hw, hh]

/-- Witness for C8: a lone 1920x1080 stream, and a 1920x1080 stream with other
codec fields followed by two further streams, receive the same result. -/
theorem getRatio_depends_on_first_dims_witness :
    getRatio ⟨[streamOf 1920 1080]⟩ = getRatio ⟨[h264Stream, streamOf 0 0, streamOf 640 480]⟩ :=
  getRatio_depends_on_first_dims _ _ (streamOf 1920 1080) h264Stream []
    [streamOf 0 0, streamOf 640 480] rfl rfl rfl rfl

/-- C9: no guard for zero or tiny dimensions.  For a first stream of width `w`
and height `h` with `0 ≤ h ≤ 10` and `w > h`, the lower-bound test
`(w / 16) * 9 ≥ h - 10` of the code is true, so `getRatio` returns "landscape"
exactly when `(w / 16) * 9 ≤ h + 10`; a zero-height first stream of width 1 to 31
is "landscape", and a 0x0 first stream is "portrait". -/
theorem getRatio_tiny_height (v : VideoMetaData) (s : Stream) (rest : List Stream)
    (hv : v.Streams = s :: rest) :
    (0 ≤ s.Height → s.Height ≤ 10 → s.Width > s.Height → IsInt s.Width →
      mulInt (divInt s.Width 16) 9 ≥ subInt s.Height 10 ∧
        (getRatio v = .ok "landscape" ↔ Int.tdiv s.Width 16 * 9 ≤ s.Height + 10)) ∧
    (s.Height = 0 → 1 ≤ s.Width → s.Width ≤ 31 → getRatio v = .ok "landscape") ∧
    (s.Width = 0 → s.Height = 0 → getRatio v = .ok "portrait") := by
  rw [getRatio_of_streams hv]
  have part1 : 0 ≤ s.Height → s.Height ≤ 10 → s.Width > s.Height → IsInt s.Width →
      mulInt (divInt s.Width 16) 9 ≥ subInt s.Height 10 ∧
        (getRatio ⟨s :: rest⟩ = .ok "landscape" ↔ Int.tdiv s.Width 16 * 9 ≤ s.Height + 10) := by
    intro hh0 hh10 hgt hwr
    have hw0 : 0 ≤ s.Width := le_of_lt (lt_of_le_of_lt hh0 hgt)
    have hhr : IsInt s.Height := by
      unfold IsInt minInt maxInt intBits
      norm_num
      omega
    have hsub : IsInt (s.Height - 10) := by
      unfold IsInt minInt maxInt intBits
      norm_num
      omega
    have hunit : 0 ≤ Int.tdiv s.Width 16 * 9 := by
      rw [Int.tdiv_eq_ediv hw0 (by decide)]
      omega
    have hlow : mulInt (divInt s.Width 16) 9 ≥ subInt s.Height 10 := by
      rw [mulInt_divInt_of_nonneg hw0 hwr]
      unfold subInt
      rw [wrapInt_of_isInt hsub]
      omega
    refine ⟨hlow, ?_⟩
    rw [getRatio_cons_landscape, window_test_iff hw0 hwr hh0 hhr]
    constructor
    · exact fun h => h.2.2
    · exact fun h => ⟨hgt, by omega, h⟩
  refine ⟨part1, ?_, ?_⟩
  · intro h0 h1 h31
    have hwr : IsInt s.Width := by
      unfold IsInt minInt maxInt intBits
      norm_num
      omega
    apply (part1 (by omega) (by omega) (by omega) hwr).2.mpr
    rw [Int.tdiv_eq_ediv (by omega) (by decide)]
    omega
  · intro h1 h2
    rw [getRatio_cons, h1, h2]
    rfl

/-- Witness for C9: a 31x0 first stream is "landscape", a 32x0 first stream is
not (its unit is 2 and `2 * 9 > 0 + 10`), and a 0x0 first stream is "portrait". -/
theorem getRatio_tiny_height_witness :
    getRatio ⟨[streamOf 31 0]⟩ = .ok "landscape" ∧
    ¬ getRatio ⟨[streamOf 32 0]⟩ = .ok "landscape" ∧
    getRatio ⟨[streamOf 0 0]⟩ = .ok "portrait" :=
  ⟨(getRatio_tiny_height ⟨[streamOf 31 0]⟩ (streamOf 31 0) [] rfl).2.1 rfl (by decide) (by decide),
    fun h => absurd (((getRatio_tiny_height ⟨[streamOf 32 0]⟩ (streamOf 32 0) [] rfl).1
      (by decide) (by decide) (by decide) (by decide)).2.mp h) (by decide),
    (getRatio_tiny_height ⟨[streamOf 0 0]⟩ (streamOf 0 0) [] rfl).2.2 rfl rfl⟩

/-- C10: `getRatio` indexes `Streams[0]` without a length check.  It yields a
label if and only if the stream list is non-empty; on an empty list it panics
with index out of range.  `getVideoAspectRatio` passes whatever the prober output
decodes to, so on an empty decoded list it returns neither a label nor an error
value: the panic propagates. -/
theorem getRatio_label_iff_nonempty {ε β : Type} (v : VideoMetaData) :
    ((∃ l : String, getRatio v = .ok l) ↔ v.Streams ≠ []) ∧
    (v.Streams = [] → getRatio v = .error (.indexOutOfRange 0 0)) ∧
    (∀ (run : String → β × Option ε) (unmarshal : β → Except ε VideoMetaData)
        (filePath : String) (b : β), run filePath = (b, none) → unmarshal b = .ok v →
      (getVideoAspectRatio run unmarshal filePath =
          match getRatio v with
          | .error p => .error p
          | .ok ratio => .ok (ratio, none)) ∧
      (v.Streams = [] →
        getVideoAspectRatio run unmarshal filePath = .error (.indexOutOfRange 0 0))) := by
  have hnil : v.Streams = [] → getRatio v = .error (.indexOutOfRange 0 0) := by
    intro h
    cases v
    simp only at h
    subst h
    rfl
  refine ⟨⟨?_, ?_⟩, hnil, ?_⟩
  · rintro ⟨l, hl⟩ hempty
    rw [hnil hempty] at hl
    cases hl
  · intro hne
    cases hs : v.Streams with
    | nil => exact absurd hs hne
    | cons s rest =>
      rw [getRatio_of_streams hs]
      rcases getRatio_cons_mem s rest with h | h | h
      · exact ⟨_, h⟩
      · exact ⟨_, h⟩
      · exact ⟨_, h⟩
  · intro run unmarshal filePath b hrun hdec
    have hcall := getVideoAspectRatio_of_decoded run unmarshal filePath b v hrun hdec
    refine ⟨hcall, fun hempty => ?_⟩
    rw [hcall, hnil hempty]

/-- Witness for C10: the empty stream list yields no label, both from `getRatio`
and from `getVideoAspectRatio` when the prober output decodes to it. -/
theorem getRatio_label_iff_nonempty_witness :
    (¬ ∃ l : String, getRatio ⟨[]⟩ = .ok l) ∧
    getRatio ⟨[]⟩ = .error (.indexOutOfRange 0 0) ∧
    getVideoAspectRatio (fun _ => ("\x7b\x7d", (none : Option String))) (fun _ => .ok ⟨[]⟩)
      "video.mp4" = .error (.indexOutOfRange 0 0) :=
  ⟨fun h => ((@getRatio_label_iff_nonempty String String ⟨[]⟩).1.mp h) rfl,
    (@getRatio_label_iff_nonempty String String ⟨[]⟩).2.1 rfl,
    ((getRatio_label_iff_nonempty ⟨[]⟩).2.2 (fun _ => ("\x7b\x7d", (none : Option String)))
      (fun _ => .ok ⟨[]⟩) "video.mp4" "\x7b\x7d" rfl rfl).2 rfl⟩

end Tubely
